import Mathlib

/-
  Verification development for the MIRIX ingestion / accumulation / dispatch core.

  Shallow embedding of:
    - mirix/agent/redis_message_store.py   (Redis-backed per-user queues, locks,
      upload statuses, one-shot user initialization)
    - mirix/agent/temporary_message_accumulator.py  (TemporaryMessageAccumulator)

  Redis lists are modelled as Lean lists (head = index 0).  LRANGE and LTRIM are
  modelled with full Redis index semantics (negative indices count from the
  tail, out-of-range indices are clamped, an empty range yields the empty
  list).  Redis values that are Python dicts become structures; Python None
  becomes Option.none; exceptions become Except.
-/

namespace Mirix

/-! ## Redis list primitives -/

/-- A Redis list index: negative values count from the end of the list. -/
def redis_index (len : Nat) (i : Int) : Int :=
  if i < 0 then (len : Int) + i else i

/-- Redis LRANGE key start stop.  Out-of-range indices are clamped; an empty
effective range yields the empty list. -/
def lrange {α : Type} (l : List α) (start stop : Int) : List α :=
  let s := max (redis_index l.length start) 0
  let e := min (redis_index l.length stop) ((l.length : Int) - 1)
  if e < s then [] else (l.drop s.toNat).take (e + 1 - s).toNat

/-- Redis LTRIM key start stop keeps exactly the LRANGE window (deleting the
key, i.e. leaving the empty list, when the window is empty). -/
def ltrim {α : Type} (l : List α) (start stop : Int) : List α :=
  lrange l start stop

/-- LRANGE 0 (n-1) with n at least 1 returns the first n elements. -/
theorem lrange_zero_pred {α : Type} (l : List α) (n : Nat) (hn : 1 ≤ n) :
    lrange l 0 ((n : Int) - 1) = l.take n := by
  have hs : max (redis_index l.length 0) 0 = 0 := by
    simp [redis_index]
  have he : redis_index l.length ((n : Int) - 1) = (n : Int) - 1 := by
    unfold redis_index
    rw [if_neg (by omega)]
  simp only [lrange, hs, he]
  by_cases hc : min ((n : Int) - 1) ((l.length : Int) - 1) < 0
  · rw [if_pos hc]
    have hl : l.length = 0 := by omega
    rw [List.eq_nil_of_length_eq_zero hl]
    simp
  · rw [if_neg hc]
    have harith : (min ((n : Int) - 1) ((l.length : Int) - 1) + 1 - 0).toNat
        = min n l.length := by omega
    rw [harith]
    simp only [Int.toNat_zero, List.drop_zero]
    rw [List.take_eq_take]
    omega

/-- LRANGE 0 (-1) returns the whole list. -/
theorem lrange_zero_neg_one {α : Type} (l : List α) : lrange l 0 (-1) = l := by
  have hs : max (redis_index l.length 0) 0 = 0 := by
    simp [redis_index]
  have he : redis_index l.length (-1) = (l.length : Int) - 1 := by
    unfold redis_index
    rw [if_pos (by omega)]
    omega
  simp only [lrange, hs, he]
  by_cases hc : min ((l.length : Int) - 1) ((l.length : Int) - 1) < 0
  · rw [if_pos hc]
    have hl : l.length = 0 := by omega
    rw [List.eq_nil_of_length_eq_zero hl]
  · rw [if_neg hc]
    have harith : (min ((l.length : Int) - 1) ((l.length : Int) - 1) + 1 - 0).toNat
        = l.length := by omega
    rw [harith]
    simp only [Int.toNat_zero, List.drop_zero]
    exact List.take_length l

/-- LTRIM n (-1) drops the first n elements. -/
theorem ltrim_head_drop {α : Type} (l : List α) (n : Nat) :
    ltrim l (n : Int) (-1) = l.drop n := by
  have hs : max (redis_index l.length (n : Int)) 0 = (n : Int) := by
    unfold redis_index
    rw [if_neg (by omega)]
    omega
  have he : redis_index l.length (-1) = (l.length : Int) - 1 := by
    unfold redis_index
    rw [if_pos (by omega)]
    omega
  simp only [ltrim, lrange, hs, he]
  by_cases hc : min ((l.length : Int) - 1) ((l.length : Int) - 1) < (n : Int)
  · rw [if_pos hc]
    exact (List.drop_eq_nil_of_le (by omega)).symm
  · rw [if_neg hc]
    have harith : (min ((l.length : Int) - 1) ((l.length : Int) - 1) + 1 - (n : Int)).toNat
        = l.length - n := by omega
    rw [harith, Int.toNat_natCast]
    exact List.take_of_length_le (by simp)

/-- LTRIM (-m) (-1) with m at least 1 keeps the last min(m, len) elements. -/
theorem ltrim_keep_last {α : Type} (l : List α) (m : Nat) (hm : 1 ≤ m) :
    ltrim l (-(m : Int)) (-1) = l.drop (l.length - m) := by
  have hs : max (redis_index l.length (-(m : Int))) 0 = ((l.length - m : Nat) : Int) := by
    unfold redis_index
    rw [if_pos (by omega)]
    omega
  have he : redis_index l.length (-1) = (l.length : Int) - 1 := by
    unfold redis_index
    rw [if_pos (by omega)]
    omega
  simp only [ltrim, lrange, hs, he]
  by_cases hc : min ((l.length : Int) - 1) ((l.length : Int) - 1) < ((l.length - m : Nat) : Int)
  · rw [if_pos hc]
    exact (List.drop_eq_nil_of_le (by omega)).symm
  · rw [if_neg hc]
    have harith : (min ((l.length : Int) - 1) ((l.length : Int) - 1) + 1
        - ((l.length - m : Nat) : Int)).toNat = l.length - (l.length - m) := by omega
    rw [harith, Int.toNat_natCast]
    exact List.take_of_length_le (by simp)

/-! ## Capped append (RPUSH + TTL refresh + conditional LTRIM)

add_message_to_redis and add_conversation_to_redis both append with RPUSH,
refresh the TTL, read LLEN, and when the length exceeds the configured cap run
LTRIM -max -1, keeping the most recent max entries.  The TTL refresh does not
change the list contents and is not represented in the value. -/

def rpush_capped {α : Type} (q : List α) (x : α) (maxLen : Nat) : List α :=
  let q2 := q ++ [x]
  if q2.length > maxLen then ltrim q2 (-(maxLen : Int)) (-1) else q2

theorem rpush_capped_eq_drop {α : Type} (q : List α) (x : α) (maxLen : Nat)
    (hmax : 1 ≤ maxLen) :
    rpush_capped q x maxLen = (q ++ [x]).drop ((q.length + 1) - maxLen) := by
  unfold rpush_capped
  by_cases hc : (q ++ [x]).length > maxLen
  · rw [if_pos hc, ltrim_keep_last _ _ hmax]
    simp
  · rw [if_neg hc]
    have : q.length + 1 - maxLen = 0 := by
      simp at hc
      omega
    rw [this, List.drop_zero]

theorem rpush_capped_fold {α : Type} (maxLen : Nat) (hmax : 1 ≤ maxLen) :
    ∀ (ms : List α) (q : List α), q.length ≤ maxLen →
      ms.foldl (fun acc x => rpush_capped acc x maxLen) q
        = (q ++ ms).drop ((q.length + ms.length) - maxLen) := by
  intro ms
  induction ms with
  | nil =>
    intro q hq
    simp only [List.foldl_nil, List.append_nil, List.length_nil, Nat.add_zero]
    have h0 : q.length - maxLen = 0 := by omega
    rw [h0, List.drop_zero]
  | cons x rest ih =>
    intro q hq
    have hstep : rpush_capped q x maxLen = (q ++ [x]).drop ((q.length + 1) - maxLen) :=
      rpush_capped_eq_drop q x maxLen hmax
    have hle : (rpush_capped q x maxLen).length ≤ maxLen := by
      rw [hstep]
      simp only [List.length_drop, List.length_append, List.length_cons, List.length_nil]
      omega
    calc (x :: rest).foldl (fun acc y => rpush_capped acc y maxLen) q
        = rest.foldl (fun acc y => rpush_capped acc y maxLen) (rpush_capped q x maxLen) := by
          simp [List.foldl_cons]
      _ = ((rpush_capped q x maxLen) ++ rest).drop
            (((rpush_capped q x maxLen).length + rest.length) - maxLen) := ih _ hle
      _ = (q ++ x :: rest).drop ((q.length + (x :: rest).length) - maxLen) := by
          rw [hstep]
          have hd : (q.length + 1) - maxLen ≤ (q ++ [x]).length := by
            simp only [List.length_append, List.length_cons, List.length_nil]
            omega
          rw [← List.drop_append_of_le_length hd, List.drop_drop]
          have hassoc : (q ++ [x]) ++ rest = q ++ x :: rest := by simp
          rw [hassoc]
          congr 1
          simp only [List.length_drop, List.length_append, List.length_cons,
            List.length_nil]
          omega

/-! ## Image references and staged messages

_serialize_image_uris distinguishes three live (in-process) forms: a dict
carrying a truthy "pending" key, an object with a .uri attribute (Google
Cloud file), and anything else, stringified as a local path.  The serialized
form is a tagged JSON dict; the deserialized form is a pending dict, the
tagged google_cloud_file dict itself, or a plain path string. -/

/-- A live image reference as seen by _serialize_image_uris. -/
inductive LiveRef : Type where
  | pendingDict (uploadUuid : Option String) (filename : Option String)
  | gcloudObj (uri : String) (name : Option String)
  | pathLike (path : String)
deriving DecidableEq

/-- Serialized image reference: the tagged JSON dict written to Redis. -/
inductive SerImageRef : Type where
  | pending (uploadUuid : Option String) (filename : Option String)
  | googleCloudFile (uri : String) (name : Option String)
  | localFile (path : String)
deriving DecidableEq

/-- Image reference after _deserialize_image_uris (or after substitution of an
upload result): a pending dict, a dict carrying a "uri" key, a plain path
string, or Python None (which get_upload_status can yield as a result). -/
inductive DRef : Type where
  | pendingRef (uploadUuid : Option String) (filename : Option String)
  | uriDict (uri : Option String) (name : Option String) (createTime : Option String)
  | pathStr (path : String)
  | nullRef
deriving DecidableEq

/-- isinstance(ref, dict) and ref.get("pending") -/
def is_pending_ref : DRef → Bool
  | DRef.pendingRef _ _ => true
  | _ => false

def serialize_image_ref : LiveRef → SerImageRef
  | LiveRef.pendingDict u f => SerImageRef.pending u f
  | LiveRef.gcloudObj uri name => SerImageRef.googleCloudFile uri name
  | LiveRef.pathLike p => SerImageRef.localFile p

/-- falsy (None or empty) image lists serialize to None -/
def serialize_image_uris : Option (List LiveRef) → Option (List SerImageRef)
  | none => none
  | some [] => none
  | some refs => some (refs.map serialize_image_ref)

def deserialize_image_ref : SerImageRef → DRef
  | SerImageRef.pending u f => DRef.pendingRef u f
  | SerImageRef.googleCloudFile uri name => DRef.uriDict (some uri) name none
  | SerImageRef.localFile p => DRef.pathStr p

def deserialize_image_uris : Option (List SerImageRef) → Option (List DRef)
  | none => none
  | some [] => none
  | some refs => some (refs.map deserialize_image_ref)

/-- _serialize_audio_segments: only the count is stored ({"count": n}); a falsy
(None or empty) segment list serializes to None.  Audio segments themselves
are opaque; we carry them as Nat tokens. -/
def serialize_audio_segments : Option (List Nat) → Option Nat
  | none => none
  | some [] => none
  | some segs => some segs.length

/-- _deserialize_audio_segments: audio data is not recovered from Redis; the
function returns None unconditionally. -/
def deserialize_audio_segments (_serialized : Option Nat) : Option (List Nat) :=
  none

/-- The message_data dict handed to add_message_to_redis.  delete_after_upload
is only placed in the dict by the non-Gemini branch of add_message; an absent
key is none. -/
structure MessageData : Type where
  imageUris : Option (List LiveRef)
  sources : Option (List String)
  audioSegments : Option (List Nat)
  message : Option String
  deleteAfterUpload : Option Bool
deriving DecidableEq

/-- The JSON object written to the Redis list by _serialize_message: exactly
the five keys timestamp, image_uris, sources, audio_segments, message. -/
structure SerializedMessage : Type where
  timestamp : String
  imageUris : Option (List SerImageRef)
  sources : Option (List String)
  audioSegments : Option Nat
  message : Option String
deriving DecidableEq

/-- The (timestamp, message_data) pair returned by _deserialize_message; the
rebuilt dict holds the keys image_uris, sources, audio_segments, message and
no delete_after_upload key. -/
structure DMessage : Type where
  timestamp : String
  imageUris : Option (List DRef)
  sources : Option (List String)
  audioSegments : Option (List Nat)
  message : Option String
  deleteAfterUpload : Option Bool
deriving DecidableEq

def serialize_message (timestamp : String) (d : MessageData) : SerializedMessage :=
  { timestamp := timestamp
    imageUris := serialize_image_uris d.imageUris
    sources := d.sources
    audioSegments := serialize_audio_segments d.audioSegments
    message := d.message }

def deserialize_message (sm : SerializedMessage) : DMessage :=
  { timestamp := sm.timestamp
    imageUris := deserialize_image_uris sm.imageUris
    sources := sm.sources
    audioSegments := deserialize_audio_segments sm.audioSegments
    message := sm.message
    deleteAfterUpload := none }

/-- One serialized conversation pair, rpushed by add_conversation_to_redis as
a JSON array of a user turn and an assistant turn. -/
structure ConvPair : Type where
  userMessage : String
  assistantResponse : String
deriving DecidableEq

/-- One role/content entry as returned by get_conversations_from_redis. -/
structure ConvEntry : Type where
  role : String
  content : String
deriving DecidableEq

/-- get_conversations_from_redis flattens each stored pair into a user entry
followed by an assistant entry. -/
def conv_entries (q : List ConvPair) : List ConvEntry :=
  q.flatMap (fun p => [⟨"user", p.userMessage⟩, ⟨"assistant", p.assistantResponse⟩])

/-! ## Upload status records (mirix:upload_status:{upload_id}) -/

/-- The serialized "result" field written by set_upload_status. -/
inductive StoredResult : Type where
  | googleCloud (uri : Option String) (name : Option String) (createTime : Option String)
  | other (value : String)
deriving DecidableEq

/-- The JSON record stored under mirix:upload_status:{upload_id}.  The
timestamp field (time.time() at write) is never read back by
get_upload_status; we omit it.  status is read back with .get, hence Option. -/
structure StoredUploadStatus : Type where
  status : Option String
  filename : Option String
  result : Option StoredResult
deriving DecidableEq

/-- The dict returned by get_upload_status: status string, resolved result
(a uri/name/create_time dict for google_cloud, the raw string for other) and
filename. -/
structure StatusReport : Type where
  status : String
  result : Option DRef
  filename : Option String
deriving DecidableEq

/-- get_upload_status: an absent key yields status "unknown" with a null
result; otherwise the stored record is deserialized. -/
def get_upload_status (store : String → Option StoredUploadStatus)
    (uploadId : String) : StatusReport :=
  match store uploadId with
  | none => { status := "unknown", result := none, filename := none }
  | some data =>
    { status := data.status.getD "unknown"
      result :=
        match data.result with
        | none => none
        | some (StoredResult.googleCloud uri name ct) => some (DRef.uriDict uri name ct)
        | some (StoredResult.other v) => some (DRef.pathStr v)
      filename := data.filename }

/-- Modelled from the spec: the Upload Manager method get_upload_status used
by the accumulator is not part of the sources; per section 4.2 of the spec a
pod consults the Coordinator upload-status key first, so we model the wrapper
as the coordinator lookup keyed by the upload_uuid of the pending
placeholder.  An absent key reads as status unknown. -/
def upload_manager_status (store : String → Option StoredUploadStatus) : DRef → StatusReport
  | DRef.pendingRef (some u) _ => get_upload_status store u
  | _ => { status := "unknown", result := none, filename := none }

/-! ## Per-user queue operations (redis_message_store) -/

def user_id_missing {α : Type} (fname : String) : Except String α :=
  Except.error ("user_id is required for " ++ fname)

/-- add_message_to_redis: validate user_id, serialize, RPUSH, refresh TTL,
LTRIM down to the most recent redis_message_max_length entries when over the
cap. -/
def add_message_to_redis (userId : Option String) (timestamp : String)
    (d : MessageData) (maxLen : Nat) (q : List SerializedMessage) :
    Except String (List SerializedMessage) :=
  match userId with
  | none => user_id_missing "add_message_to_redis"
  | some _ => Except.ok (rpush_capped q (serialize_message timestamp d) maxLen)

/-- get_messages_from_redis: LRANGE 0 e and deserialize; the end index is
limit-1 when limit is truthy (a falsy limit of None or 0 reads everything). -/
def get_messages_from_redis (userId : Option String) (limit : Option Nat)
    (q : List SerializedMessage) : Except String (List DMessage) :=
  match userId with
  | none => user_id_missing "get_messages_from_redis"
  | some _ =>
    let e : Int :=
      match limit with
      | some l => if l = 0 then -1 else (l : Int) - 1
      | none => -1
    Except.ok ((lrange q 0 e).map deserialize_message)

/-- remove_messages_from_redis: LTRIM count -1 keeps only what follows the
first count entries. -/
def remove_messages_from_redis (userId : Option String) (count : Nat)
    (q : List SerializedMessage) : Except String (List SerializedMessage) :=
  match userId with
  | none => user_id_missing "remove_messages_from_redis"
  | some _ => Except.ok (ltrim q (count : Int) (-1))

def get_message_count_from_redis (userId : Option String)
    (q : List SerializedMessage) : Except String Nat :=
  match userId with
  | none => user_id_missing "get_message_count_from_redis"
  | some _ => Except.ok q.length

/-- add_conversation_to_redis: validate, RPUSH the serialized pair, refresh
TTL, LTRIM down to redis_conversation_max_length when over the cap. -/
def add_conversation_to_redis (userId : Option String) (userMessage : String)
    (assistantResponse : String) (maxLen : Nat) (q : List ConvPair) :
    Except String (List ConvPair) :=
  match userId with
  | none => user_id_missing "add_conversation_to_redis"
  | some _ => Except.ok (rpush_capped q ⟨userMessage, assistantResponse⟩ maxLen)

def get_conversations_from_redis (userId : Option String) (q : List ConvPair) :
    Except String (List ConvEntry) :=
  match userId with
  | none => user_id_missing "get_conversations_from_redis"
  | some _ => Except.ok (conv_entries q)

def clear_conversations_from_redis (userId : Option String) (_q : List ConvPair) :
    Except String (List ConvPair) :=
  match userId with
  | none => user_id_missing "clear_conversations_from_redis"
  | some _ => Except.ok []

/-- acquire_user_lock: SET NX EX timeout; returns (acquired, new lock state). -/
def acquire_user_lock (userId : Option String) (_timeout : Nat) (lock : Bool) :
    Except String (Bool × Bool) :=
  match userId with
  | none => user_id_missing "acquire_user_lock"
  | some _ => if lock then Except.ok (false, lock) else Except.ok (true, true)

def release_user_lock (userId : Option String) (_lock : Bool) :
    Except String Bool :=
  match userId with
  | none => user_id_missing "release_user_lock"
  | some _ => Except.ok false

/-! ## The atomic pop script -/

/-- The Lua script run by atomic_pop_messages: LRANGE 0 count-1, and when any
element was read, LTRIM count -1; returns (read elements, remaining list). -/
def lua_pop_head {α : Type} (q : List α) (count : Int) : List α × List α :=
  let messages := lrange q 0 (count - 1)
  if messages.length > 0 then (messages, ltrim q count (-1)) else (messages, q)

/-- atomic_pop_messages: validate user_id, run the script, deserialize. -/
def atomic_pop_messages (userId : Option String) (count : Nat)
    (q : List SerializedMessage) :
    Except String (List DMessage × List SerializedMessage) :=
  match userId with
  | none => user_id_missing "atomic_pop_messages"
  | some _ =>
    let r := lua_pop_head q (count : Int)
    Except.ok (r.1.map deserialize_message, r.2)

/-! ## One-shot user initialization (mirix:user_init_done:{user_id}) -/

/-- The init_done key for one user: some ttl when present (value "1"). -/
structure InitState : Type where
  initDone : Option Nat
deriving DecidableEq

def is_user_initialized (s : InitState) : Bool :=
  s.initDone.isSome

/-- mark_user_initialized: SETNX; only on a first-time set is the TTL applied.
An existing key is left entirely unchanged. -/
def mark_user_initialized (s : InitState) (ttl : Nat) : InitState :=
  if s.initDone.isSome then s else { initDone := some ttl }

/-! ## TemporaryMessageAccumulator: readiness walk (should_absorb_content) -/

/-- Inner loop of should_absorb_content over the image_uris of one message: a
pending placeholder is resolved against the upload status; completed
substitutes the result, failed and unknown drop the image, any other status
stops the walk (none = this message is blocked); non-pending references are
kept as-is. -/
def process_image_uris (statusFn : DRef → StatusReport) : List DRef → Option (List DRef)
  | [] => some []
  | r :: rs =>
    if is_pending_ref r then
      if (statusFn r).status == "completed" then
        (process_image_uris statusFn rs).map
          (fun l => ((statusFn r).result.getD DRef.nullRef) :: l)
      else if (statusFn r).status == "failed" then
        process_image_uris statusFn rs
      else if (statusFn r).status == "unknown" then
        process_image_uris statusFn rs
      else
        none
    else
      (process_image_uris statusFn rs).map (fun l => r :: l)

/-- A reference that keeps the walk pending: a pending placeholder whose
status is neither completed nor failed nor unknown. -/
def still_pending_ref (statusFn : DRef → StatusReport) (r : DRef) : Bool :=
  is_pending_ref r &&
    !((statusFn r).status == "completed" || (statusFn r).status == "failed"
      || (statusFn r).status == "unknown")

/-- A message carrying at least one still-pending upload. -/
def has_still_pending (statusFn : DRef → StatusReport) (m : DMessage) : Bool :=
  (m.imageUris.getD []).any (still_pending_ref statusFn)

/-- Outer loop of should_absorb_content: walk messages in temporal order,
collecting ready messages (with resolved image lists); stop at the first
message with a still-pending upload.  A message with a falsy image list is
ready as-is. -/
def ready_walk (statusFn : DRef → StatusReport) : List DMessage → List DMessage
  | [] => []
  | m :: rest =>
    match m.imageUris with
    | some (r :: rs) =>
      match process_image_uris statusFn (r :: rs) with
      | none => []
      | some processed => { m with imageUris := some processed } :: ready_walk statusFn rest
    | _ => m :: ready_walk statusFn rest

/-- should_absorb_content, after reading all messages for the user.  For
Gemini models (needsUpload) the ready prefix is computed by the walk and
returned only when it reaches temporary_message_limit; otherwise the first
limit messages are returned whenever enough are queued.  An empty list is the
Python empty return. -/
def should_absorb_content (needsUpload : Bool) (statusFn : DRef → StatusReport)
    (limit : Nat) (msgs : List DMessage) : List DMessage :=
  if needsUpload then
    let ready := ready_walk statusFn msgs
    if ready.length ≥ limit then ready else []
  else
    if msgs.length ≥ limit then msgs.take limit else []

/-! ## TemporaryMessageAccumulator: prompt assembly (_build_memory_message) -/

inductive MessagePart : Type where
  | text (s : String)
  | googleCloudFileUri (uri : Option String)
  | imageData (data : String)
deriving DecidableEq

def get_image_mime_type (p : String) : String :=
  let lower := p.toLower
  if lower.endsWith ".png" || lower.endsWith ".PNG" then "image/png"
  else if lower.endsWith ".jpg" || lower.endsWith ".jpeg" || lower.endsWith ".JPG"
      || lower.endsWith ".JPEG" then "image/jpeg"
  else if lower.endsWith ".gif" || lower.endsWith ".GIF" then "image/gif"
  else if lower.endsWith ".webp" || lower.endsWith ".WEBP" then "image/webp"
  else "image/png"

/-- Append an image under its source key, preserving first-insertion order of
sources (Python dicts preserve insertion order). -/
def upsert_image (acc : List (String × List (String × DRef))) (src : String)
    (img : String × DRef) : List (String × List (String × DRef)) :=
  match acc with
  | [] => [(src, [img])]
  | (k, v) :: rest =>
    if k == src then (k, v ++ [img]) :: rest else (k, v) :: upsert_image rest src img

/-- images_by_source: group images by source label when the sources list is
truthy and matches the image count, else group under the generic
"Screenshots" label. -/
def collect_images_by_source (ready : List DMessage) :
    List (String × List (String × DRef)) :=
  ready.foldl (fun acc m =>
    match m.imageUris with
    | some (x :: xs) =>
      let refs := x :: xs
      let sources := m.sources.getD []
      if !sources.isEmpty && sources.length == refs.length then
        (sources.zip refs).foldl (fun a p => upsert_image a p.1 (m.timestamp, p.2)) acc
      else
        refs.foldl (fun a fr => upsert_image a "Screenshots" (m.timestamp, fr)) acc
    | _ => acc) []

/-- text_content: messages with a truthy (non-empty) text, in walk order. -/
def collect_text (ready : List DMessage) : List (String × String) :=
  ready.filterMap (fun m =>
    match m.message with
    | some t => if t = "" then none else some (m.timestamp, t)
    | none => none)

/-- audio_content: concatenation of truthy audio segment lists (an empty
extend is a no-op). -/
def collect_audio (ready : List DMessage) : List Nat :=
  ready.foldl (fun acc m => acc ++ (m.audioSegments.getD [])) []

/-- Rendering of one file reference in the prompt.  A dict with a "uri" key
becomes a Google Cloud URI block; a plain string is encoded inline (the
encoder is external; none models an encoding failure, which yields the error
text block); any other value makes the encoder raise, which is caught and
also yields the error text block. -/
def render_file_ref (encodeImage : String → Option String) (fr : DRef) : MessagePart :=
  match fr with
  | DRef.uriDict uri _ _ => MessagePart.googleCloudFileUri uri
  | DRef.pathStr p =>
    match encodeImage p with
    | some b64 =>
      MessagePart.imageData ("data:" ++ get_image_mime_type p ++ ";base64," ++ b64)
    | none => MessagePart.text ("[Image at " ++ p ++ " could not be processed]")
  | DRef.pendingRef _ _ =>
    MessagePart.text "[Image at pending placeholder could not be processed]"
  | DRef.nullRef => MessagePart.text "[Image at None could not be processed]"

/-- _build_memory_message.  transcribe models process_voice_files (external);
it is only consulted when some audio exists, and a falsy (empty)
transcription emits no voice block. -/
def build_memory_message (encodeImage : String → Option String)
    (transcribe : List Nat → String) (ready : List DMessage)
    (voiceContent : List Nat) : List MessagePart :=
  let imagesBySource := collect_images_by_source ready
  let textContent := collect_text ready
  let allVoice := voiceContent ++ collect_audio ready
  let transcription := if allVoice.isEmpty then "" else transcribe allVoice
  let imageParts :=
    if imagesBySource.isEmpty then [] else
      MessagePart.text "The following are the screenshots taken from the computer of the user:" ::
      imagesBySource.flatMap (fun sv =>
        MessagePart.text ("These are the screenshots from " ++ sv.1 ++ ":") ::
        sv.2.flatMap (fun ti =>
          [MessagePart.text ("Timestamp: " ++ ti.1), render_file_ref encodeImage ti.2]))
  let voiceParts :=
    if transcription = "" then [] else
      [MessagePart.text ("The following are the voice recordings and their transcriptions:\n"
        ++ transcription)]
  let textParts :=
    if textContent.isEmpty then [] else
      MessagePart.text "The following are text messages from the user:" ::
      textContent.map (fun tt =>
        MessagePart.text ("Timestamp: " ++ tt.1 ++ " Text:\n" ++ tt.2))
  imageParts ++ voiceParts ++ textParts

/-! ## TemporaryMessageAccumulator: absorption (absorb_content_into_memory)

absorb_content_into_memory is modelled as a function from the per-user
coordinator state to (trace of coordinator operations on the keys of this user,
final state, outcome).  The fallible dispatch to the agent layer is a
parameter returning Except; an error models an exception raised inside the
guarded scope. -/

/-- Coordinator operations on the keys of one user, as issued by the accumulator. -/
inductive RedisOp : Type where
  | setIfAbsentLock (ttl : Nat) (acquired : Bool)
  | delLock
  | lrangeMessages (start stop : Int)
  | ltrimMessages (start stop : Int)
  | evalPopHead (count : Nat)
  | lrangeConversations (start stop : Int)
  | delConversations
deriving DecidableEq

inductive AbsorbOutcome : Type where
  | skipped
  | completed (deletedFiles : List String)
  | dispatchFailed (err : String)
deriving DecidableEq

/-- Per-user slice of the coordinator: the two queues and the absorb lock. -/
structure UserState : Type where
  messages : List SerializedMessage
  conversations : List ConvPair
  absorbLock : Bool
deriving DecidableEq

/-- The else branch of absorb_content_into_memory (ready_messages is None):
every message is classified as ready (resolved image list) or pending; unlike
the readiness walk, a blocked message does not stop this loop. -/
def absorb_partition (needsUpload : Bool) (statusFn : DRef → StatusReport) :
    List DMessage → List DMessage × List DMessage
  | [] => ([], [])
  | m :: rest =>
    let acc := absorb_partition needsUpload statusFn rest
    match m.imageUris with
    | some (x :: xs) =>
      if needsUpload then
        match process_image_uris statusFn (x :: xs) with
        | none => (acc.1, m :: acc.2)
        | some processed => ({ m with imageUris := some processed } :: acc.1, acc.2)
      else (m :: acc.1, acc.2)
    | _ => (m :: acc.1, acc.2)

/-- Voice extraction in absorb: audio segments that are not None. -/
def collect_voice (ready : List DMessage) : List Nat :=
  ready.foldl (fun acc m =>
    match m.audioSegments with
    | some l => acc ++ l
    | none => acc) []

/-- _add_user_conversation_to_message transcript text. -/
def conversation_transcript (entries : List ConvEntry) : String :=
  ("The following are the conversations between the user and the Chat Agent while capturing this content:\n"
    ++ String.join (entries.map (fun e =>
        "role: " ++ e.role ++ "; content: " ++ e.content ++ "\n"))).trim

/-- The trailing system directive appended to the assembled prompt. -/
def system_directive (skipMeta userAdded : Bool) : String :=
  if skipMeta then
    if userAdded then
      "[System Message] Interpret the provided content and the conversations between the user and the chat agent, according to what the user is doing, trigger the appropriate memory update."
    else
      "[System Message] Interpret the provided content, according to what the user is doing, extract the important information matching your memory type and save it into the memory."
  else
    if userAdded then
      "[System Message] As the meta memory manager, analyze the provided content and the conversations between the user and the chat agent. Based on what the user is doing, determine which memory should be updated (episodic, procedural, knowledge vault, semantic, core, and resource)."
    else
      "[System Message] As the meta memory manager, analyze the provided content. Based on the content, determine what memories need to be updated (episodic, procedural, knowledge vault, semantic, core, and resource)"

/-- _cleanup_processed_content: for non-Gemini models, the local image files
of each processed item whose delete_after_upload flag (read with default
True) is set are deleted; only plain string paths are deleted.  For Gemini
models only external bookkeeping happens.  Returns the deleted paths. -/
def cleanup_processed_content (needsUpload : Bool) (ready : List DMessage) :
    List String :=
  if needsUpload then []
  else
    ready.flatMap (fun m =>
      if m.deleteAfterUpload.getD true then
        match m.imageUris with
        | some (x :: xs) =>
          (x :: xs).filterMap (fun r =>
            match r with
            | DRef.pathStr p => some p
            | _ => none)
        | _ => []
      else [])

/-- The guarded scope of absorb_content_into_memory (everything inside the
try).  Returns the coordinator operations it performed, the state it left,
and the outcome; a dispatch error aborts before cleanup. -/
def absorb_body (needsUpload skipMeta : Bool) (statusFn : DRef → StatusReport)
    (encodeImage : String → Option String) (transcribe : List Nat → String)
    (dispatch : List MessagePart → Except String Unit)
    (readyMessages : Option (List DMessage)) (s : UserState) :
    List RedisOp × UserState × AbsorbOutcome :=
  let step1 : List RedisOp × UserState × List DMessage :=
    match readyMessages with
    | some ready =>
      ([RedisOp.ltrimMessages (ready.length : Int) (-1)],
       { s with messages := ltrim s.messages (ready.length : Int) (-1) }, ready)
    | none =>
      let allMsgs := (lrange s.messages 0 (-1)).map deserialize_message
      let part := absorb_partition needsUpload statusFn allMsgs
      let numProcessed := allMsgs.length - part.2.length
      if numProcessed > 0 then
        ([RedisOp.lrangeMessages 0 (-1), RedisOp.ltrimMessages (numProcessed : Int) (-1)],
         { s with messages := ltrim s.messages (numProcessed : Int) (-1) }, part.1)
      else
        ([RedisOp.lrangeMessages 0 (-1)], s, part.1)
  let ready := step1.2.2
  let baseParts := build_memory_message encodeImage transcribe ready (collect_voice ready)
  let entries := conv_entries step1.2.1.conversations
  let userAdded := !entries.isEmpty
  let parts2 :=
    if userAdded then baseParts ++ [MessagePart.text (conversation_transcript entries)]
    else baseParts
  let ops2 := step1.1 ++ [RedisOp.lrangeConversations 0 (-1)]
  let finalParts := parts2 ++ [MessagePart.text (system_directive skipMeta userAdded)]
  match dispatch finalParts with
  | Except.error e => (ops2, step1.2.1, AbsorbOutcome.dispatchFailed e)
  | Except.ok _ =>
    let deleted := cleanup_processed_content needsUpload ready
    if userAdded then
      (ops2 ++ [RedisOp.delConversations], { step1.2.1 with conversations := [] },
       AbsorbOutcome.completed deleted)
    else (ops2, step1.2.1, AbsorbOutcome.completed deleted)

/-- absorb_content_into_memory: acquire the absorb lock with SET NX EX 30; if
it is already held, return immediately; otherwise run the guarded scope and
release the lock on every exit path (try/finally). -/
def absorb_content_into_memory (needsUpload skipMeta : Bool)
    (statusFn : DRef → StatusReport) (encodeImage : String → Option String)
    (transcribe : List Nat → String)
    (dispatch : List MessagePart → Except String Unit)
    (readyMessages : Option (List DMessage)) (s : UserState) :
    List RedisOp × UserState × AbsorbOutcome :=
  if s.absorbLock then
    ([RedisOp.setIfAbsentLock 30 false], s, AbsorbOutcome.skipped)
  else
    let r := absorb_body needsUpload skipMeta statusFn encodeImage transcribe dispatch
      readyMessages { s with absorbLock := true }
    (RedisOp.setIfAbsentLock 30 true :: (r.1 ++ [RedisOp.delLock]),
     { r.2.1 with absorbLock := false }, r.2.2)

/-! ## Accumulator entry points with user_id validation -/

/-- add_message: validate user_id; for Gemini models the stored message_data
has no delete_after_upload key, for other models the flag is stored.  Upload
submission and voice decoding are external and do not touch the queue. -/
def tma_add_message (userId : Option String) (needsUpload : Bool)
    (timestamp : String) (imageUris : Option (List LiveRef))
    (sources : Option (List String)) (audioSegments : Option (List Nat))
    (message : Option String) (deleteAfterUpload : Bool) (maxLen : Nat)
    (q : List SerializedMessage) : Except String (List SerializedMessage) :=
  match userId with
  | none => user_id_missing "add_message"
  | some u =>
    let d : MessageData :=
      if needsUpload then
        { imageUris := imageUris, sources := sources, audioSegments := audioSegments
          message := message, deleteAfterUpload := none }
      else
        { imageUris := imageUris, sources := sources, audioSegments := audioSegments
          message := message, deleteAfterUpload := some deleteAfterUpload }
    add_message_to_redis (some u) timestamp d maxLen q

def tma_add_user_conversation (userId : Option String) (userMessage : String)
    (assistantResponse : String) (maxLen : Nat) (q : List ConvPair) :
    Except String (List ConvPair) :=
  match userId with
  | none => user_id_missing "add_user_conversation"
  | some u => add_conversation_to_redis (some u) userMessage assistantResponse maxLen q

def tma_should_absorb_content (userId : Option String) (needsUpload : Bool)
    (statusFn : DRef → StatusReport) (limit : Nat)
    (q : List SerializedMessage) : Except String (List DMessage) :=
  match userId with
  | none => user_id_missing "should_absorb_content"
  | some _ =>
    Except.ok (should_absorb_content needsUpload statusFn limit
      ((lrange q 0 (-1)).map deserialize_message))

def tma_absorb_content_into_memory (userId : Option String)
    (needsUpload skipMeta : Bool) (statusFn : DRef → StatusReport)
    (encodeImage : String → Option String) (transcribe : List Nat → String)
    (dispatch : List MessagePart → Except String Unit)
    (readyMessages : Option (List DMessage)) (s : UserState) :
    Except String (List RedisOp × UserState × AbsorbOutcome) :=
  match userId with
  | none => user_id_missing "absorb_content_into_memory"
  | some _ =>
    Except.ok (absorb_content_into_memory needsUpload skipMeta statusFn encodeImage
      transcribe dispatch readyMessages s)

def tma_get_message_count (userId : Option String) (q : List SerializedMessage) :
    Except String Nat :=
  match userId with
  | none => user_id_missing "get_message_count"
  | some u => get_message_count_from_redis (some u) q

/-! ## Resolution of a fully-unblocked image list -/

/-- Per-reference effect of the walk when nothing is still pending: completed
pending placeholders are replaced by the upload result, failed and unknown
ones are dropped, non-pending references pass through. -/
def resolve_one (statusFn : DRef → StatusReport) (r : DRef) : Option DRef :=
  if is_pending_ref r then
    if (statusFn r).status == "completed" then
      some ((statusFn r).result.getD DRef.nullRef)
    else none
  else some r

/-- Effect of the walk on one unblocked message. -/
def resolve_msg (statusFn : DRef → StatusReport) (m : DMessage) : DMessage :=
  match m.imageUris with
  | some (x :: xs) =>
    { m with imageUris := some ((x :: xs).filterMap (resolve_one statusFn)) }
  | _ => m

/-! ## Round trip of a staged message

The deserialized counterpart of each live reference form: the tag and its
identifying fields survive; a google_cloud_file comes back as the tagged dict
(no create_time key). -/

def live_to_deserialized_ref : LiveRef → DRef
  | LiveRef.pendingDict u f => DRef.pendingRef u f
  | LiveRef.gcloudObj uri name => DRef.uriDict (some uri) name none
  | LiveRef.pathLike p => DRef.pathStr p

/-- What one serialize/deserialize round trip does to the image_uris field:
falsy lists collapse to none, each reference maps to its deserialized form. -/
def roundtrip_uris : Option (List LiveRef) → Option (List DRef)
  | none => none
  | some [] => none
  | some refs => some (refs.map live_to_deserialized_ref)

/-! ## Concrete sample inputs used by witnesses and counterexamples -/

def wit_data0 : MessageData :=
  { imageUris := none, sources := none, audioSegments := none
    message := some "hello", deleteAfterUpload := none }

def wit_audio_data : MessageData :=
  { imageUris := none, sources := none, audioSegments := some [0, 0]
    message := some "hi", deleteAfterUpload := none }

def wit_ser_a : SerializedMessage := serialize_message "T1" wit_data0

def wit_ser_b : SerializedMessage := serialize_message "T2" wit_data0

def status_all_unknown : DRef → StatusReport :=
  fun _ => { status := "unknown", result := none, filename := none }

def status_all_pending : DRef → StatusReport :=
  fun _ => { status := "pending", result := none, filename := none }

def enc_none : String → Option String := fun _ => none

def transcribe_empty : List Nat → String := fun _ => ""

def dispatch_ok : List MessagePart → Except String Unit := fun _ => Except.ok ()

def wit_state0 : UserState :=
  { messages := [wit_ser_a, wit_ser_b], conversations := [], absorbLock := false }

def wit_state_locked : UserState :=
  { messages := [wit_ser_a], conversations := [], absorbLock := true }

def wit_pending_msg : DMessage :=
  { timestamp := "T1", imageUris := some [DRef.pendingRef (some "u1") (some "a.png")]
    sources := none, audioSegments := none, message := some "hello"
    deleteAfterUpload := none }

/-- A coordinator upload-status store with one failed upload record. -/
def wit_store : String → Option StoredUploadStatus :=
  fun uploadId =>
    if uploadId = "u1" then
      some { status := some "failed", filename := some "a.png", result := none }
    else none

/-- A message with one failed pending image and one already-local image. -/
def wit_fail_msg : DMessage :=
  { timestamp := "T1"
    imageUris := some [DRef.pendingRef (some "u1") (some "a.png"), DRef.pathStr "b.png"]
    sources := some ["s1", "s2"], audioSegments := none, message := some "hello"
    deleteAfterUpload := none }

/-- A producer message with delete_after_upload False and one local image. -/
def wit_noflag_data : MessageData :=
  { imageUris := some [LiveRef.pathLike "a.png"], sources := none
    audioSegments := none, message := some "m", deleteAfterUpload := some false }

/-! ## Helper lemmas about the walk -/

theorem process_none_iff (statusFn : DRef → StatusReport) :
    ∀ refs : List DRef,
      process_image_uris statusFn refs = none
        ↔ refs.any (still_pending_ref statusFn) = true := by
  intro refs
  induction refs with
  | nil => simp [process_image_uris]
  | cons r rs ih =>
    simp only [process_image_uris, List.any_cons]
    by_cases hp : is_pending_ref r = true
    · by_cases hc : ((statusFn r).status == "completed") = true
      · simp [hp, hc, still_pending_ref, ih]
      · by_cases hf : ((statusFn r).status == "failed") = true
        · simp [hp, hc, hf, still_pending_ref, ih]
        · by_cases hu : ((statusFn r).status == "unknown") = true
          · simp [hp, hc, hf, hu, still_pending_ref, ih]
          · simp [hp, hc, hf, hu, still_pending_ref]
    · simp [hp, still_pending_ref, ih]

theorem process_eq_filterMap (statusFn : DRef → StatusReport) :
    ∀ refs : List DRef, refs.any (still_pending_ref statusFn) = false →
      process_image_uris statusFn refs
        = some (refs.filterMap (resolve_one statusFn)) := by
  intro refs
  induction refs with
  | nil => intro _; simp [process_image_uris]
  | cons r rs ih =>
    intro h
    simp only [List.any_cons, Bool.or_eq_false_iff] at h
    obtain ⟨h1, h2⟩ := h
    simp only [process_image_uris, List.filterMap_cons]
    by_cases hp : is_pending_ref r = true
    · by_cases hc : ((statusFn r).status == "completed") = true
      · simp [hp, hc, resolve_one, ih h2]
      · by_cases hf : ((statusFn r).status == "failed") = true
        · simp [hp, hc, hf, resolve_one, ih h2]
        · by_cases hu : ((statusFn r).status == "unknown") = true
          · simp [hp, hc, hf, hu, resolve_one, ih h2]
          · exfalso
            simp [still_pending_ref, hp, hc, hf, hu] at h1
    · simp [hp, resolve_one, ih h2]

theorem ready_walk_le (statusFn : DRef → StatusReport) :
    ∀ (msgs : List DMessage) (i : Nat) (m : DMessage),
      msgs[i]? = some m → has_still_pending statusFn m = true →
      (ready_walk statusFn msgs).length ≤ i := by
  intro msgs
  induction msgs with
  | nil =>
    intro i m hm _
    simp at hm
  | cons m0 rest ih =>
    intro i m hm hp
    cases i with
    | zero =>
      simp only [List.getElem?_cons_zero, Option.some_inj] at hm
      subst hm
      have himg : ∃ x xs, m0.imageUris = some (x :: xs) := by
        unfold has_still_pending at hp
        cases h : m0.imageUris with
        | none => rw [h] at hp; simp at hp
        | some l =>
          cases l with
          | nil => rw [h] at hp; simp at hp
          | cons x xs => exact ⟨x, xs, rfl⟩
      obtain ⟨x, xs, hx⟩ := himg
      have hnone : process_image_uris statusFn (x :: xs) = none := by
        rw [process_none_iff]
        unfold has_still_pending at hp
        rw [hx] at hp
        simpa using hp
      simp [ready_walk, hx, hnone]
    | succ i2 =>
      have hm2 : rest[i2]? = some m := by simpa using hm
      cases hx : m0.imageUris with
      | none =>
        simp only [ready_walk, hx, List.length_cons]
        exact Nat.succ_le_succ (ih i2 m hm2 hp)
      | some l =>
        cases l with
        | nil =>
          simp only [ready_walk, hx, List.length_cons]
          exact Nat.succ_le_succ (ih i2 m hm2 hp)
        | cons x xs =>
          cases hpr : process_image_uris statusFn (x :: xs) with
          | none =>
            simp [ready_walk, hx, hpr]
          | some processed =>
            simp only [ready_walk, hx, hpr, List.length_cons]
            exact Nat.succ_le_succ (ih i2 m hm2 hp)

theorem ready_walk_all (statusFn : DRef → StatusReport) :
    ∀ msgs : List DMessage,
      (∀ m ∈ msgs, has_still_pending statusFn m = false) →
      ready_walk statusFn msgs = msgs.map (resolve_msg statusFn) := by
  intro msgs
  induction msgs with
  | nil => intro _; simp [ready_walk]
  | cons m0 rest ih =>
    intro h
    have h0 := h m0 (List.mem_cons_self m0 rest)
    have hrest : ∀ m ∈ rest, has_still_pending statusFn m = false :=
      fun m hm => h m (List.mem_cons_of_mem _ hm)
    cases hx : m0.imageUris with
    | none =>
      simp only [ready_walk, hx, List.map_cons]
      rw [ih hrest]
      simp [resolve_msg, hx]
    | some l =>
      cases l with
      | nil =>
        simp only [ready_walk, hx, List.map_cons]
        rw [ih hrest]
        simp [resolve_msg, hx]
      | cons x xs =>
        have hany : (x :: xs).any (still_pending_ref statusFn) = false := by
          unfold has_still_pending at h0
          rw [hx] at h0
          simpa using h0
        have hpr := process_eq_filterMap statusFn (x :: xs) hany
        simp only [ready_walk, hx, hpr, List.map_cons]
        rw [ih hrest]
        simp [resolve_msg, hx]

theorem absorb_partition_all (statusFn : DRef → StatusReport) :
    ∀ msgs : List DMessage,
      (∀ m ∈ msgs, has_still_pending statusFn m = false) →
      absorb_partition true statusFn msgs = (msgs.map (resolve_msg statusFn), []) := by
  intro msgs
  induction msgs with
  | nil => intro _; simp [absorb_partition]
  | cons m0 rest ih =>
    intro h
    have h0 := h m0 (List.mem_cons_self m0 rest)
    have hrest : ∀ m ∈ rest, has_still_pending statusFn m = false :=
      fun m hm => h m (List.mem_cons_of_mem _ hm)
    cases hx : m0.imageUris with
    | none =>
      simp only [absorb_partition, hx, ih hrest, List.map_cons]
      simp [resolve_msg, hx]
    | some l =>
      cases l with
      | nil =>
        simp only [absorb_partition, hx, ih hrest, List.map_cons]
        simp [resolve_msg, hx]
      | cons x xs =>
        have hany : (x :: xs).any (still_pending_ref statusFn) = false := by
          unfold has_still_pending at h0
          rw [hx] at h0
          simpa using h0
        have hpr := process_eq_filterMap statusFn (x :: xs) hany
        simp only [absorb_partition, hx, hpr, ih hrest, List.map_cons]
        simp [resolve_msg, hx]

/-! ## Helper lemmas about serialization and the prompt -/

theorem deserialize_serialize_ref (r : LiveRef) :
    deserialize_image_ref (serialize_image_ref r) = live_to_deserialized_ref r := by
  cases r <;> rfl

theorem deserialize_serialize_eq (ts : String) (d : MessageData) :
    deserialize_message (serialize_message ts d) =
      { timestamp := ts
        imageUris := roundtrip_uris d.imageUris
        sources := d.sources
        audioSegments := none
        message := d.message
        deleteAfterUpload := none } := by
  rcases d with ⟨uris, srcs, audio, msg, del⟩
  rcases uris with _ | ⟨_ | ⟨x, xs⟩⟩
  · rfl
  · rfl
  · simp only [deserialize_message, serialize_message, serialize_image_uris,
      deserialize_image_uris, roundtrip_uris, deserialize_audio_segments,
      List.map_cons, List.map_map]
    simp [Function.comp_def, deserialize_serialize_ref]

theorem mark_user_initialized_of_done (s : InitState) (ttl : Nat)
    (h : is_user_initialized s = true) : mark_user_initialized s ttl = s := by
  unfold is_user_initialized at h
  unfold mark_user_initialized
  rw [if_pos h]

theorem collect_text_mem (ready : List DMessage) (m : DMessage) (t : String)
    (hm : m ∈ ready) (ht : m.message = some t) (hne : t ≠ "") :
    (m.timestamp, t) ∈ collect_text ready := by
  unfold collect_text
  refine List.mem_filterMap.mpr ⟨m, hm, ?_⟩
  rw [ht]
  simp [hne]

theorem text_part_in_build (enc : String → Option String) (tr : List Nat → String)
    (ready : List DMessage) (voice : List Nat) (ts t : String)
    (h : (ts, t) ∈ collect_text ready) :
    MessagePart.text ("Timestamp: " ++ ts ++ " Text:\n" ++ t)
      ∈ build_memory_message enc tr ready voice := by
  have hne : (collect_text ready).isEmpty = false := by
    cases hct : collect_text ready with
    | nil => rw [hct] at h; cases h
    | cons a as => rfl
  unfold build_memory_message
  apply List.mem_append_right
  rw [hne]
  simp only [Bool.false_eq_true, if_false]
  exact List.mem_cons_of_mem _
    (List.mem_map_of_mem (fun tt => MessagePart.text ("Timestamp: " ++ tt.1 ++ " Text:\n" ++ tt.2)) h)

/-! ## Helper lemmas about the pop script and initialization -/

theorem lua_pop_head_take_drop {α : Type} (q : List α) (n : Nat) (hn : 1 ≤ n) :
    lua_pop_head q (n : Int) = (q.take n, q.drop n) := by
  unfold lua_pop_head
  rw [lrange_zero_pred q n hn]
  by_cases hq : (q.take n).length > 0
  · rw [if_pos hq, ltrim_head_drop]
  · rw [if_neg hq]
    have hnil : q = [] := by
      rcases q with _ | ⟨a, t⟩
      · rfl
      · simp [List.length_take] at hq
        omega
    subst hnil
    simp

theorem lua_pop_head_zero {α : Type} (q : List α) : lua_pop_head q 0 = (q, q) := by
  unfold lua_pop_head
  have h0 : (0 : Int) - 1 = -1 := by omega
  rw [h0, lrange_zero_neg_one]
  by_cases hq : q.length > 0
  · rw [if_pos hq]
    have htr : ltrim q (0 : Int) (-1) = q := by
      have h := ltrim_head_drop q 0
      simpa using h
    rw [htr]
  · rw [if_neg hq]

theorem foldl_mark_of_done : ∀ (ttls : List Nat) (s : InitState),
    is_user_initialized s = true → ttls.foldl mark_user_initialized s = s := by
  intro ttls
  induction ttls with
  | nil => intro s _; rfl
  | cons t rest ih =>
    intro s hs
    have h1 : mark_user_initialized s t = s := mark_user_initialized_of_done s t hs
    simp only [List.foldl_cons, h1]
    exact ih s hs

theorem is_user_initialized_mark (s : InitState) (ttl : Nat) :
    is_user_initialized (mark_user_initialized s ttl) = true := by
  unfold mark_user_initialized is_user_initialized
  by_cases h : s.initDone.isSome
  · rw [if_pos h]
    exact h
  · rw [if_neg h]
    rfl

theorem resolve_msg_fields (statusFn : DRef → StatusReport) (m : DMessage) :
    (resolve_msg statusFn m).timestamp = m.timestamp
    ∧ (resolve_msg statusFn m).message = m.message := by
  rcases hx : m.imageUris with _ | ⟨_ | ⟨x, xs⟩⟩ <;> simp [resolve_msg, hx]

/-! ## Claim theorems -/

/-- Claim C2 (amended): for every queue and every requested count n at least
1, atomic_pop_messages returns exactly the first min(n, len) elements (the
take) and leaves the queue equal to the remaining suffix (the drop); for
n = 0 the Lua script reads LRANGE 0 -1, so it returns the entire queue and
leaves it unchanged, rather than returning zero elements. -/
theorem atomic_pop_spec (u : String) (q : List SerializedMessage) (n : Nat)
    (hn : 1 ≤ n) :
    atomic_pop_messages (some u) n q
      = Except.ok ((q.take n).map deserialize_message, q.drop n)
    ∧ atomic_pop_messages (some u) 0 q
      = Except.ok (q.map deserialize_message, q) := by
  constructor
  · simp only [atomic_pop_messages]
    rw [lua_pop_head_take_drop q n hn]
  · simp only [atomic_pop_messages]
    have h0 : ((0 : Nat) : Int) = (0 : Int) := rfl
    rw [h0, lua_pop_head_zero]

/-- Witness for atomic_pop_spec at a concrete queue and count. -/
theorem atomic_pop_spec_witness :
    atomic_pop_messages (some "user") 2 [wit_ser_a, wit_ser_b]
      = Except.ok (([wit_ser_a, wit_ser_b].take 2).map deserialize_message,
          [wit_ser_a, wit_ser_b].drop 2) :=
  (atomic_pop_spec "user" [wit_ser_a, wit_ser_b] 2 (by decide)).1

/-- Counterexample to claim C2 as stated: with count 0 on a one-element
queue, atomic_pop_messages does not return min(0, 1) = 0 elements; it
returns the whole queue and leaves it in place. -/
theorem atomic_pop_zero_count_cex :
    atomic_pop_messages (some "user") 0 [wit_ser_a] ≠ Except.ok ([], [wit_ser_a])
    ∧ atomic_pop_messages (some "user") 0 [wit_ser_a]
      = Except.ok ([deserialize_message wit_ser_a], [wit_ser_a]) := by
  have h2 : atomic_pop_messages (some "user") 0 [wit_ser_a]
      = Except.ok ([deserialize_message wit_ser_a], [wit_ser_a]) := rfl
  refine ⟨?_, h2⟩
  rw [h2]
  intro hcontra
  simp at hcontra

/-- Claim C9: mark_user_initialized is idempotent: after a first call
is_user_initialized is true, and any number of further calls (with any TTL
arguments) leave the init_done flag exactly as the first call set it. -/
theorem mark_user_initialized_idempotent :
    (∀ (s : InitState) (ttl : Nat),
      is_user_initialized (mark_user_initialized s ttl) = true)
    ∧ (∀ (s : InitState) (ttl ttl2 : Nat),
      mark_user_initialized (mark_user_initialized s ttl) ttl2
        = mark_user_initialized s ttl)
    ∧ (∀ (s : InitState) (ttl : Nat) (ttls : List Nat),
      ttls.foldl mark_user_initialized (mark_user_initialized s ttl)
        = mark_user_initialized s ttl) := by
  refine ⟨is_user_initialized_mark, ?_, ?_⟩
  · intro s ttl ttl2
    exact mark_user_initialized_of_done _ _ (is_user_initialized_mark s ttl)
  · intro s ttl ttls
    exact foldl_mark_of_done ttls _ (is_user_initialized_mark s ttl)

/-- Claim C4: after any sequence of appends without absorption the message
queue holds at most maxM entries and the conversation queue at most maxC
entries, and exactly the most recent entries survive (the drop of the
oldest); each add call performs exactly this capped append. -/
theorem capacity_bound_and_recency (u : String) (sms : List SerializedMessage)
    (cps : List ConvPair) (maxM maxC : Nat) (hM : 1 ≤ maxM) (hC : 1 ≤ maxC) :
    (sms.foldl (fun acc x => rpush_capped acc x maxM) []).length ≤ maxM
    ∧ sms.foldl (fun acc x => rpush_capped acc x maxM) []
        = sms.drop (sms.length - maxM)
    ∧ (∀ (q : List SerializedMessage) (ts : String) (d : MessageData),
      add_message_to_redis (some u) ts d maxM q
        = Except.ok (rpush_capped q (serialize_message ts d) maxM))
    ∧ (cps.foldl (fun acc x => rpush_capped acc x maxC) []).length ≤ maxC
    ∧ cps.foldl (fun acc x => rpush_capped acc x maxC) []
        = cps.drop (cps.length - maxC)
    ∧ (∀ (q : List ConvPair) (um ar : String),
      add_conversation_to_redis (some u) um ar maxC q
        = Except.ok (rpush_capped q (⟨um, ar⟩ : ConvPair) maxC)) := by
  have hmsg := rpush_capped_fold maxM hM sms [] (by simp)
  have hcnv := rpush_capped_fold maxC hC cps [] (by simp)
  simp only [List.nil_append, List.length_nil, Nat.zero_add] at hmsg hcnv
  refine ⟨?_, hmsg, fun _ _ _ => rfl, ?_, hcnv, fun _ _ _ => rfl⟩
  · rw [hmsg]
    simp only [List.length_drop]
    omega
  · rw [hcnv]
    simp only [List.length_drop]
    omega

/-- Witness for capacity_bound_and_recency: five messages against a cap of
three keep exactly the last three. -/
theorem capacity_bound_and_recency_witness :
    ([wit_ser_a, wit_ser_b, wit_ser_a, wit_ser_b, wit_ser_a].foldl
        (fun acc x => rpush_capped acc x 3) []).length ≤ 3
    ∧ [wit_ser_a, wit_ser_b, wit_ser_a, wit_ser_b, wit_ser_a].foldl
        (fun acc x => rpush_capped acc x 3) []
      = [wit_ser_a, wit_ser_b, wit_ser_a, wit_ser_b, wit_ser_a].drop
          ([wit_ser_a, wit_ser_b, wit_ser_a, wit_ser_b, wit_ser_a].length - 3) := by
  have h := capacity_bound_and_recency "user"
    [wit_ser_a, wit_ser_b, wit_ser_a, wit_ser_b, wit_ser_a] [] 3 1
    (by decide) (by decide)
  exact ⟨h.1, h.2.1⟩

/-- Claim C5 (amended): deserializing the serialized form of a staged message
preserves the timestamp, text and source labels, and maps every image
reference to its deserialized counterpart with the same tag and identifying
fields (falsy image lists collapsing to none); the audio segments are not
recovered: deserialization always yields none for them (only the serialized
form records their count). -/
theorem serialize_roundtrip_fields (ts : String) (d : MessageData) :
    deserialize_message (serialize_message ts d) =
      { timestamp := ts
        imageUris := roundtrip_uris d.imageUris
        sources := d.sources
        audioSegments := none
        message := d.message
        deleteAfterUpload := none } :=
  deserialize_serialize_eq ts d

/-- Counterexample to claim C5 as stated: a message with two audio segments
round-trips to a message whose audio field is none; the count 2 survives only
in the serialized form and is not part of the deserialized message. -/
theorem roundtrip_audio_count_cex :
    (deserialize_message (serialize_message "T" wit_audio_data)).audioSegments = none
    ∧ (serialize_message "T" wit_audio_data).audioSegments = some 2
    ∧ ¬ (deserialize_message (serialize_message "T" wit_audio_data)).audioSegments
        = wit_audio_data.audioSegments := by
  refine ⟨rfl, rfl, by decide⟩

/-- Claim C6 (amended): every core operation partitioned by user fails with a
ValueError surfaced to the caller, before any coordinator operation, when
user_id is None; the queues are untouched by such a call.  (The empty string
is not rejected: only None is validated, see the counterexample.) -/
theorem null_user_id_validation :
    (∀ (needsUpload : Bool) (ts : String) (uris : Option (List LiveRef))
        (srcs : Option (List String)) (audio : Option (List Nat))
        (msg : Option String) (del : Bool) (maxLen : Nat)
        (q : List SerializedMessage),
      tma_add_message none needsUpload ts uris srcs audio msg del maxLen q
        = user_id_missing "add_message")
    ∧ (∀ (um ar : String) (maxLen : Nat) (q : List ConvPair),
      tma_add_user_conversation none um ar maxLen q
        = user_id_missing "add_user_conversation")
    ∧ (∀ (needsUpload : Bool) (statusFn : DRef → StatusReport) (limit : Nat)
        (q : List SerializedMessage),
      tma_should_absorb_content none needsUpload statusFn limit q
        = user_id_missing "should_absorb_content")
    ∧ (∀ (needsUpload skipMeta : Bool) (statusFn : DRef → StatusReport)
        (enc : String → Option String) (tr : List Nat → String)
        (dispatch : List MessagePart → Except String Unit)
        (readyM : Option (List DMessage)) (s : UserState),
      tma_absorb_content_into_memory none needsUpload skipMeta statusFn enc tr
          dispatch readyM s
        = user_id_missing "absorb_content_into_memory")
    ∧ (∀ q : List SerializedMessage,
      tma_get_message_count none q = user_id_missing "get_message_count")
    ∧ (∀ (ts : String) (d : MessageData) (maxLen : Nat) (q : List SerializedMessage),
      add_message_to_redis none ts d maxLen q = user_id_missing "add_message_to_redis")
    ∧ (∀ (limit : Option Nat) (q : List SerializedMessage),
      get_messages_from_redis none limit q = user_id_missing "get_messages_from_redis")
    ∧ (∀ (count : Nat) (q : List SerializedMessage),
      remove_messages_from_redis none count q
        = user_id_missing "remove_messages_from_redis")
    ∧ (∀ q : List SerializedMessage,
      get_message_count_from_redis none q
        = user_id_missing "get_message_count_from_redis")
    ∧ (∀ (um ar : String) (maxLen : Nat) (q : List ConvPair),
      add_conversation_to_redis none um ar maxLen q
        = user_id_missing "add_conversation_to_redis")
    ∧ (∀ q : List ConvPair,
      get_conversations_from_redis none q
        = user_id_missing "get_conversations_from_redis")
    ∧ (∀ q : List ConvPair,
      clear_conversations_from_redis none q
        = user_id_missing "clear_conversations_from_redis")
    ∧ (∀ (t : Nat) (lock : Bool),
      acquire_user_lock none t lock = user_id_missing "acquire_user_lock")
    ∧ (∀ lock : Bool,
      release_user_lock none lock = user_id_missing "release_user_lock")
    ∧ (∀ (count : Nat) (q : List SerializedMessage),
      atomic_pop_messages none count q = user_id_missing "atomic_pop_messages") := by
  refine ⟨?_, ?_, ?_, ?_, ?_, ?_, ?_, ?_, ?_, ?_, ?_, ?_, ?_, ?_, ?_⟩ <;> intros <;> rfl

/-- Counterexample to claim C6 as stated: an empty-string user_id is not
rejected; the call succeeds and the coordinator queue is modified (the only
validated failure is user_id None). -/
theorem empty_user_id_not_rejected :
    tma_add_message (some "") false "T1" none none none (some "hello") true 10 []
      = Except.ok [serialize_message "T1"
          { imageUris := none, sources := none, audioSegments := none
            message := some "hello", deleteAfterUpload := some true }]
    ∧ tma_get_message_count (some "") [wit_ser_a] = Except.ok 1 :=
  ⟨rfl, rfl⟩

/-- Claim C3: in the upload-aware walk of should_absorb_content, a message at
position i with a still-pending image bounds the ready candidate to a prefix
of length at most i (so the returned batch too), and the candidate is
returned iff its length reaches temporary_message_limit; otherwise the empty
result is returned, regardless of the total queue length. -/
theorem should_absorb_temporal_order (statusFn : DRef → StatusReport)
    (limit : Nat) (msgs : List DMessage) (i : Nat) (m : DMessage)
    (hm : msgs[i]? = some m) (hp : has_still_pending statusFn m = true) :
    (ready_walk statusFn msgs).length ≤ i
    ∧ (should_absorb_content true statusFn limit msgs).length ≤ i
    ∧ should_absorb_content true statusFn limit msgs
        = (if limit ≤ (ready_walk statusFn msgs).length
            then ready_walk statusFn msgs else []) := by
  have h1 := ready_walk_le statusFn msgs i m hm hp
  refine ⟨h1, ?_, ?_⟩
  · by_cases hc : limit ≤ (ready_walk statusFn msgs).length
    · simp only [should_absorb_content, if_pos, ge_iff_le, hc, if_true]
      exact h1
    · simp only [should_absorb_content, ge_iff_le, hc, if_false]
      simp
  · by_cases hc : limit ≤ (ready_walk statusFn msgs).length <;>
      simp only [should_absorb_content, ge_iff_le, hc, if_true, if_false]

/-- Witness for should_absorb_temporal_order: one queued message with one
still-pending image blocks the walk at position 0. -/
theorem should_absorb_temporal_order_witness :
    (ready_walk status_all_pending [wit_pending_msg]).length ≤ 0
    ∧ (should_absorb_content true status_all_pending 1 [wit_pending_msg]).length ≤ 0
    ∧ should_absorb_content true status_all_pending 1 [wit_pending_msg]
        = (if 1 ≤ (ready_walk status_all_pending [wit_pending_msg]).length
            then ready_walk status_all_pending [wit_pending_msg] else []) :=
  should_absorb_temporal_order status_all_pending 1 [wit_pending_msg] 0
    wit_pending_msg rfl (by decide)

/-- Claim C10: _serialize_message writes only the five fields timestamp,
image_uris, sources, audio_segments, message; the delete_after_upload flag is
not persisted, so a round-tripped message reads it back as absent, the
cleanup default of True applies, and the local image files are deleted even
though the producer enqueued the message with delete_after_upload False. -/
theorem delete_after_upload_not_persisted (ts : String) (d : MessageData)
    (ps : List String) (hflag : d.deleteAfterUpload = some false)
    (huris : d.imageUris = some (ps.map LiveRef.pathLike)) (hne : ps ≠ []) :
    (deserialize_message (serialize_message ts d)).deleteAfterUpload = none
    ∧ (deserialize_message (serialize_message ts d)).deleteAfterUpload.getD true = true
    ∧ cleanup_processed_content false [deserialize_message (serialize_message ts d)]
        = ps := by
  have heq := deserialize_serialize_eq ts d
  rcases ps with _ | ⟨p, ps2⟩
  · exact absurd rfl hne
  · have huris2 : roundtrip_uris d.imageUris
        = some (DRef.pathStr p :: ps2.map DRef.pathStr) := by
      rw [huris]
      simp [roundtrip_uris, live_to_deserialized_ref]
    refine ⟨by rw [heq], by rw [heq]; rfl, ?_⟩
    rw [heq]
    unfold cleanup_processed_content
    simp only [Bool.false_eq_true, if_false, List.flatMap_cons, List.flatMap_nil,
      List.append_nil, huris2]
    simp [List.filterMap_map, Function.comp_def]

/-- Witness for delete_after_upload_not_persisted: a producer message with
delete_after_upload False and one local image still has the file deleted
after a round trip through the queue. -/
theorem delete_after_upload_not_persisted_witness :
    (deserialize_message (serialize_message "T" wit_noflag_data)).deleteAfterUpload = none
    ∧ (deserialize_message (serialize_message "T" wit_noflag_data)).deleteAfterUpload.getD true
        = true
    ∧ cleanup_processed_content false
        [deserialize_message (serialize_message "T" wit_noflag_data)] = ["a.png"] :=
  delete_after_upload_not_persisted "T" wit_noflag_data ["a.png"] rfl rfl (by decide)

/-- Claim C8: absorb_content_into_memory first attempts the per-user absorb
lock with SET NX and a 30 second TTL; when the lock is already held it
returns at once with the one failed acquire as its only coordinator
operation, leaving the whole state (messages included) untouched; when the
lock is acquired, the trace starts with the successful acquire and ends with
the lock delete on every exit path, dispatch failures included, and the lock
is clear in the final state. -/
theorem absorb_lock_protocol (needsUpload skipMeta : Bool)
    (statusFn : DRef → StatusReport) (enc : String → Option String)
    (tr : List Nat → String) (dispatch : List MessagePart → Except String Unit)
    (readyM : Option (List DMessage)) (s : UserState) :
    (s.absorbLock = true →
      absorb_content_into_memory needsUpload skipMeta statusFn enc tr dispatch readyM s
        = ([RedisOp.setIfAbsentLock 30 false], s, AbsorbOutcome.skipped))
    ∧ (s.absorbLock = false →
      (absorb_content_into_memory needsUpload skipMeta statusFn enc tr dispatch
          readyM s).1.head? = some (RedisOp.setIfAbsentLock 30 true)
      ∧ (absorb_content_into_memory needsUpload skipMeta statusFn enc tr dispatch
          readyM s).1.getLast? = some RedisOp.delLock
      ∧ (absorb_content_into_memory needsUpload skipMeta statusFn enc tr dispatch
          readyM s).2.1.absorbLock = false) := by
  constructor
  · intro h
    unfold absorb_content_into_memory
    rw [if_pos h]
  · intro h
    have hneg : ¬ (s.absorbLock = true) := by rw [h]; exact Bool.false_ne_true
    have hB : absorb_content_into_memory needsUpload skipMeta statusFn enc tr dispatch readyM s
        = (RedisOp.setIfAbsentLock 30 true ::
            ((absorb_body needsUpload skipMeta statusFn enc tr dispatch readyM
              { s with absorbLock := true }).1 ++ [RedisOp.delLock]),
           { (absorb_body needsUpload skipMeta statusFn enc tr dispatch readyM
              { s with absorbLock := true }).2.1 with absorbLock := false },
           (absorb_body needsUpload skipMeta statusFn enc tr dispatch readyM
              { s with absorbLock := true }).2.2) := by
      unfold absorb_content_into_memory
      rw [if_neg hneg]
    refine ⟨by rw [hB]; try rfl, ?_, by rw [hB]; try rfl⟩
    rw [hB, ← List.cons_append]
    exact List.getLast?_concat _

/-- Witness for absorb_lock_protocol: a held lock makes absorb skip without
touching the state; a free lock yields a trace ending in the lock delete. -/
theorem absorb_lock_protocol_witness :
    absorb_content_into_memory true true status_all_unknown enc_none
        transcribe_empty dispatch_ok none wit_state_locked
      = ([RedisOp.setIfAbsentLock 30 false], wit_state_locked, AbsorbOutcome.skipped)
    ∧ (absorb_content_into_memory true true status_all_unknown enc_none
        transcribe_empty dispatch_ok none wit_state0).1.getLast?
      = some RedisOp.delLock := by
  constructor
  · exact (absorb_lock_protocol true true status_all_unknown enc_none
      transcribe_empty dispatch_ok none wit_state_locked).1 rfl
  · exact ((absorb_lock_protocol true true status_all_unknown enc_none
      transcribe_empty dispatch_ok none wit_state0).2 rfl).2.1

/-- Claim C7 (spec-modelled upload-manager wrapper): a pending image whose
upload status resolves to failed, or to unknown because the coordinator key
is absent, is dropped and only it is dropped: the surrounding message stays
in the ready walk (at its position, with the remaining references resolved),
every non-pending reference of the message is kept, its text is still
emitted in the assembled prompt, and the absorb-side partition classifies
every message as ready. -/
theorem upload_failure_image_local (store : String → Option StoredUploadStatus)
    (enc : String → Option String) (tr : List Nat → String) (voice : List Nat)
    (msgs : List DMessage) (i : Nat) (m : DMessage) (refs : List DRef)
    (r : DRef) (t : String)
    (hm : msgs[i]? = some m)
    (hnb : ∀ m2 ∈ msgs, has_still_pending (upload_manager_status store) m2 = false)
    (href : m.imageUris = some refs) (hr : r ∈ refs)
    (hpend : is_pending_ref r = true)
    (hst : (upload_manager_status store r).status = "failed"
      ∨ (upload_manager_status store r).status = "unknown")
    (ht : m.message = some t) (hne : t ≠ "") :
    resolve_one (upload_manager_status store) r = none
    ∧ (ready_walk (upload_manager_status store) msgs)[i]?
        = some (resolve_msg (upload_manager_status store) m)
    ∧ (∀ r2 ∈ refs, is_pending_ref r2 = false
        → resolve_one (upload_manager_status store) r2 = some r2)
    ∧ MessagePart.text ("Timestamp: " ++ m.timestamp ++ " Text:\n" ++ t)
        ∈ build_memory_message enc tr (ready_walk (upload_manager_status store) msgs) voice
    ∧ absorb_partition true (upload_manager_status store) msgs
        = (msgs.map (resolve_msg (upload_manager_status store)), []) := by
  have hwalk := ready_walk_all (upload_manager_status store) msgs hnb
  have hmem : m ∈ msgs := List.getElem?_mem hm
  refine ⟨?_, ?_, ?_, ?_, absorb_partition_all (upload_manager_status store) msgs hnb⟩
  · rcases hst with hf | hf <;> simp [resolve_one, hpend, hf]
  · rw [hwalk, List.getElem?_map, hm]
    rfl
  · intro r2 _ hnp
    simp [resolve_one, hnp]
  · have hfields := resolve_msg_fields (upload_manager_status store) m
    have hmem2 : resolve_msg (upload_manager_status store) m
        ∈ ready_walk (upload_manager_status store) msgs := by
      rw [hwalk]
      exact List.mem_map_of_mem _ hmem
    have hct : ((resolve_msg (upload_manager_status store) m).timestamp, t)
        ∈ collect_text (ready_walk (upload_manager_status store) msgs) :=
      collect_text_mem _ _ _ hmem2 (by rw [hfields.2, ht]) hne
    have hpart := text_part_in_build enc tr _ voice _ t hct
    rw [hfields.1] at hpart
    exact hpart

/-- Witness for upload_failure_image_local: one message with a failed pending
image and a local image keeps its place in the walk, loses only the failed
image, and its text block appears in the assembled prompt. -/
theorem upload_failure_image_local_witness :
    resolve_one (upload_manager_status wit_store)
        (DRef.pendingRef (some "u1") (some "a.png")) = none
    ∧ (ready_walk (upload_manager_status wit_store) [wit_fail_msg])[0]?
        = some (resolve_msg (upload_manager_status wit_store) wit_fail_msg)
    ∧ MessagePart.text ("Timestamp: " ++ wit_fail_msg.timestamp ++ " Text:\nhello")
        ∈ build_memory_message enc_none transcribe_empty
            (ready_walk (upload_manager_status wit_store) [wit_fail_msg]) []
    ∧ absorb_partition true (upload_manager_status wit_store) [wit_fail_msg]
        = ([wit_fail_msg].map (resolve_msg (upload_manager_status wit_store)), []) := by
  have h := upload_failure_image_local wit_store enc_none transcribe_empty []
    [wit_fail_msg] 0 wit_fail_msg
    [DRef.pendingRef (some "u1") (some "a.png"), DRef.pathStr "b.png"]
    (DRef.pendingRef (some "u1") (some "a.png")) "hello"
    rfl
    (by
      intro m2 hm2
      rcases List.mem_singleton.mp hm2 with rfl
      decide)
    rfl (by decide) rfl (Or.inl (by decide)) rfl (by decide)
  exact ⟨h.1, h.2.1, h.2.2.2.1, h.2.2.2.2⟩

/-- Claim C1 evaluated at a concrete absorption (the claim is violated by the
code): with two fully-ready queued messages and no precomputed batch,
absorb_content_into_memory reads the queue with LRANGE 0 -1 and then removes
the processed prefix with a separate LTRIM 2 -1; no invocation of the atomic
pop script appears anywhere in the trace. -/
theorem absorb_read_then_trim_not_atomic :
    (absorb_content_into_memory true false status_all_unknown enc_none
        transcribe_empty dispatch_ok none wit_state0).1
      = [RedisOp.setIfAbsentLock 30 true, RedisOp.lrangeMessages 0 (-1),
         RedisOp.ltrimMessages 2 (-1), RedisOp.lrangeConversations 0 (-1),
         RedisOp.delLock]
    ∧ (absorb_content_into_memory true false status_all_unknown enc_none
        transcribe_empty dispatch_ok none wit_state0).2.1.messages = []
    ∧ ∀ n : Nat, RedisOp.evalPopHead n
        ∉ (absorb_content_into_memory true false status_all_unknown enc_none
            transcribe_empty dispatch_ok none wit_state0).1 := by
  have htrace : (absorb_content_into_memory true false status_all_unknown enc_none
      transcribe_empty dispatch_ok none wit_state0).1
      = [RedisOp.setIfAbsentLock 30 true, RedisOp.lrangeMessages 0 (-1),
         RedisOp.ltrimMessages 2 (-1), RedisOp.lrangeConversations 0 (-1),
         RedisOp.delLock] := by decide
  refine ⟨htrace, by decide, ?_⟩
  intro n hmem
  rw [htrace] at hmem
  simp at hmem
